import Mathlib

/-!
Verification development for the sonido terminal music player
(src/main.rs). The playback transport engine, the library scanner and
their environment (filesystem walker results, tag reads, decoder probes,
audio device acquisition, the wall clock) are shallowly embedded: every
effectful interaction with the outside world becomes an explicit
parameter, and Rust `Duration` values become nanosecond counts (`Nat`),
`Instant` values become `Int` nanosecond timestamps.
-/

namespace Sonido

/-- Nanoseconds per second; Rust `Duration` stores seconds + nanos, we
store a single nanosecond count. -/
def nsPerSec : Nat := 1000000000

/-- Model of `Duration::as_secs` (whole seconds, truncating). -/
def asSecs (d : Nat) : Nat := d / nsPerSec

/-- Model of `Duration::from_secs`. -/
def fromSecs (s : Nat) : Nat := s * nsPerSec

/-- Model of a filesystem path: only the file stem and the extension are
ever inspected by the program (`file_stem`, `extension`). -/
structure FsFile where
  stem : Option String := none
  ext : Option String := none
deriving DecidableEq

/-- Track display metadata, translated field by field from `struct
Metadata` in src/main.rs (the `year` field is the tag year already
rendered to a string, as `tag.year().map(|y| y.to_string())` does). -/
structure Metadata where
  title : Option String := none
  artist : Option String := none
  album : Option String := none
  year : Option String := none
  genre : Option String := none
  track_number : Option Nat := none
  bitrate : Option Nat := none
  sample_rate : Option Nat := none
  channels : Option Nat := none
deriving DecidableEq

/-- One playable file, from `struct Track` in src/main.rs. -/
structure Track where
  path : FsFile
  duration : Nat
  metadata : Metadata
deriving DecidableEq

/-- Tag contents as returned by lofty for one file: the program only uses
`primary_tag().or_else(first_tag())`, modelled as a single optional tag. -/
structure TagData where
  title : Option String := none
  artist : Option String := none
  album : Option String := none
  year : Option String := none
  genre : Option String := none
  track : Option Nat := none
deriving DecidableEq

/-- Audio properties reported by lofty (`tagged_file.properties()`). -/
structure FileProps where
  audio_bitrate : Option Nat := none
  sample_rate : Option Nat := none
  channels : Option Nat := none
deriving DecidableEq

/-- Result of `read_from_path` for one file. -/
structure TaggedFile where
  tag : Option TagData := none
  properties : FileProps := {}
deriving DecidableEq

/-- Model of Rust `str::split_once(sep)` on character lists: split at the
first occurrence of `sep`, returning the parts before and after it. -/
def splitOnceChars (sep : List Char) : List Char → Option (List Char × List Char)
  | [] => none
  | c :: rest =>
    if sep.isPrefixOf (c :: rest) then
      some ([], (c :: rest).drop sep.length)
    else
      match splitOnceChars sep rest with
      | some (pre, post) => some (c :: pre, post)
      | none => none

/-- Model of Rust `str::split_once` on strings. -/
def splitOnce (s sep : String) : Option (String × String) :=
  (splitOnceChars sep.data s.data).map (fun p => (String.mk p.1, String.mk p.2))

/-- The file name used for fallback metadata:
`path.file_stem().and_then(to_str).unwrap_or("Unknown")`. -/
def fileStemName (p : FsFile) : String := p.stem.getD ("Unknown")

/-- Translation of `Metadata::from_path` (src/main.rs lines 94-136): copy
tag fields and audio properties when the tag read succeeded, then derive a
fallback title (and possibly artist) from the file name when no tag title
exists, splitting the base name once on a literal " - ". -/
def Metadata.from_path (path : FsFile) (read : Option TaggedFile) : Metadata :=
  let file_name := fileStemName path
  let m : Metadata := {}
  let m :=
    match read with
    | some tf =>
      let m :=
        match tf.tag with
        | some tag =>
          { m with
            title := tag.title
            artist := tag.artist
            album := tag.album
            year := tag.year
            genre := tag.genre
            track_number := tag.track }
        | none => m
      { m with
        bitrate := tf.properties.audio_bitrate
        sample_rate := tf.properties.sample_rate
        channels := tf.properties.channels }
    | none => m
  if m.title.isNone then
    match splitOnce file_name (" - ") with
    | some (artist, title) => { m with title := some title, artist := some artist }
    | none => { m with title := some file_name }
  else
    m

/-- ASCII lowercasing of one character, as Rust `to_lowercase` acts on
the ASCII range (the full Unicode case table is out of scope; every
string the claims exercise is ASCII). -/
def charLower (c : Char) : Char :=
  if 65 ≤ c.toNat ∧ c.toNat ≤ 90 then Char.ofNat (c.toNat + 32) else c

/-- Model of Rust `str::to_lowercase`, character-wise. -/
def strLower (s : String) : String := String.mk (s.data.map charLower)

/-- Byte-lexicographic order on character lists, the order Rust
`String::cmp` implements (UTF-8 byte order coincides with scalar-value
order, so comparing code points is faithful). Returns `true` when the
first list is less than or equal to the second. -/
def lexLe : List Char → List Char → Bool
  | [], _ => true
  | _ :: _, [] => false
  | a :: as, b :: bs =>
    if a.toNat < b.toNat then true
    else if b.toNat < a.toNat then false
    else lexLe as bs

/-- String comparison `a <= b` in the Rust total order. -/
def keyLe (a b : String) : Bool := lexLe a.data b.data

/-- Stable insertion of `x` into a list already sorted by the key `k`:
`x` goes in front of the first element whose key is not smaller, which is
exactly where a stable sort places an element that originally preceded the
list's elements. This is the embedding of the (stable) `slice::sort_by`
call at src/main.rs lines 883-900. -/
def insertByKey {α : Type} (k : α → String) (x : α) : List α → List α
  | [] => [x]
  | y :: ys =>
    if keyLe (k x) (k y) then x :: y :: ys
    else y :: insertByKey k x ys

/-- Stable sort by a string key (insertion sort). -/
def sortByKey {α : Type} (k : α → String) : List α → List α
  | [] => []
  | x :: xs => insertByKey k x (sortByKey k xs)

/-- The sort key used by `scan_music_files`:
`metadata.title.as_deref().unwrap_or("").to_lowercase()`. -/
def trackSortKey (t : Track) : String := strLower (t.metadata.title.getD (""))

/-- The fixed allow-list of audio extensions from `scan_music_files`. -/
def audioExtensions : List String :=
  ["mp3", "aac", "wav", "flac", "alac", "aiff", "aif", "m4a"]

deriving instance DecidableEq for Except

/-- What the environment reports for one directory entry produced by the
WalkDir iterator: the path, whether it is a regular file, the decoder
probe outcome (`File::open` + `Decoder::new` may fail; on success the
decoder reports an optional total duration), and the tag-read outcome. -/
structure ScanEntry where
  path : FsFile
  is_file : Bool
  probe : Except Unit (Option Nat)
  tag_read : Option TaggedFile
deriving DecidableEq

/-- Translation of `get_audio_duration` (src/main.rs lines 905-914):
propagate open/decode failure, otherwise `total_duration().unwrap_or(ZERO)`. -/
def get_audio_duration (probe : Except Unit (Option Nat)) : Except Unit Nat :=
  match probe with
  | .error e => .error e
  | .ok d => .ok (d.getD 0)

/-- The per-entry body of the scan loop (src/main.rs lines 864-881): keep
regular files whose lower-cased extension is on the allow-list; duration
probe failure degrades to duration zero via `unwrap_or(Duration::ZERO)`. -/
def processEntry (e : ScanEntry) : Option Track :=
  if e.is_file then
    match e.path.ext with
    | some ext =>
      if audioExtensions.contains (strLower ext) then
        let duration :=
          match get_audio_duration e.probe with
          | .ok d => d
          | .error _ => 0
        some { path := e.path, duration := duration,
               metadata := Metadata.from_path e.path e.tag_read }
      else none
    | none => none
  else none

/-- The collection phase of `scan_music_files`: the walker stream is
`walker.filter_map(|e| e.ok())`, so erroneous entries (including an
unreadable root) are silently dropped. -/
def collectTracks (entries : List (Except Unit ScanEntry)) : List Track :=
  entries.filterMap (fun r =>
    match r with
    | .ok e => processEntry e
    | .error _ => none)

/-- Translation of `scan_music_files` (src/main.rs lines 845-903). The
`recursive` flag only selects how the walker stream is produced (depth
bound), which is part of the environment here; the body never produces an
error value. -/
def scan_music_files (recursive : Bool) (entries : List (Except Unit ScanEntry)) :
    Except Unit (List Track) :=
  let _ := recursive
  Except.ok (sortByKey trackSortKey (collectTracks entries))

/-! The playback transport engine. -/

/-- The three playback phases, from `enum PlaybackState` in src/main.rs. -/
inductive PlaybackState
  | Playing
  | Paused
  | Stopped
deriving DecidableEq

/-- A `rodio::Sink` handle held by the app. Only its presence and its
pause flag are observable at the control plane; device-side effects of
`stop`/`append` are owned by the audio service. -/
structure SinkH where
  paused : Bool
deriving DecidableEq

/-- The transport-relevant fields of `struct App` (src/main.rs lines
212-224): `config` is UI/key-binding data never read by the transport
logic and is omitted; `list_state` and `scroll_state` are kept as the
values the transport writes into them (the selected index and the
scrollbar position). `position` is in nanoseconds, `playback_start` is an
`Instant` timestamp in nanoseconds. -/
structure App where
  tracks : List Track
  current_track : Nat
  list_selected : Option Nat
  playback_state : PlaybackState
  position : Nat
  playback_start : Option Int
  repeat_mode : Bool
  sink : Option SinkH
  stream : Option Unit
  scroll_position : Nat
deriving DecidableEq

/-- Outcomes the environment supplies for one resource-acquisition
attempt: whether `OutputStream::try_default()`, `File::open` and
`Decoder::new` succeed. (`Sink::try_new(..).unwrap()` is a panic on
failure in the source, not a handled branch, so it is not an outcome
here.) -/
structure LoadEnv where
  streamOk : Bool
  fileOk : Bool
  decodeOk : Bool
deriving DecidableEq

/-- All three acquisitions succeed. -/
def LoadEnv.ok (e : LoadEnv) : Bool := e.streamOk && e.fileOk && e.decodeOk

/-- Duration of the track at `current_track`; the source indexes
`app.tracks[app.current_track]` directly (a panic when out of range),
modelled totally with default 0 — theorems carry the in-range hypothesis. -/
def App.curDur (app : App) : Nat :=
  ((app.tracks.get? app.current_track).map Track.duration).getD 0

/-- Translation of `play_track` (src/main.rs lines 979-998): on full
success, reset position to zero, anchor at `now`, install the fresh sink
and stream and go to Playing; when any of the three nested acquisitions
fails, fall through to `playback_state = Stopped` — note the source
changes no other field on that path. -/
def play_track (app : App) (env : LoadEnv) (now : Int) : App :=
  if env.streamOk then
    if env.fileOk then
      if env.decodeOk then
        { app with
          position := 0
          playback_start := some now
          sink := some { paused := false }
          stream := some ()
          playback_state := .Playing }
      else { app with playback_state := .Stopped }
    else { app with playback_state := .Stopped }
  else { app with playback_state := .Stopped }

/-- Translation of `toggle_playback` (src/main.rs lines 924-946). -/
def toggle_playback (app : App) (env : LoadEnv) (now : Int) : App :=
  match app.playback_state with
  | .Playing =>
    { app with
      sink := app.sink.map (fun s => { s with paused := true })
      playback_state := .Paused
      playback_start := none }
  | .Paused =>
    { app with
      sink := app.sink.map (fun s => { s with paused := false })
      playback_state := .Playing
      playback_start := some (now - (app.position : Int)) }
  | .Stopped => play_track app env now

/-- Translation of `toggle_repeat` (src/main.rs lines 948-954). -/
def toggle_repeat (app : App) : App :=
  { app with repeat_mode := if app.repeat_mode then false else true }

/-- Rust `i64::clamp(lo, hi)`: `if x < lo then lo else if x > hi then hi
else x` (the source guarantees `lo = 0 <= hi`). -/
def intClamp (x lo hi : Int) : Int :=
  if x < lo then lo else if hi < x then hi else x

/-- Translation of `seek` (src/main.rs lines 956-977): position is set to
the clamped whole-second target unconditionally; only when a sink exists
and the phase is Playing is the decoder reopened at the new offset (the
sink handle itself is kept across `stop`/`append`), re-anchoring the
clock on success; the trailing `else if` branch of the source rewrites
`playback_start` with its own value. -/
def seek (app : App) (seconds : Int) (env : LoadEnv) (now : Int) : App :=
  let new_pos : Int := (asSecs app.position : Int) + seconds
  let duration : Int := (asSecs app.curDur : Int)
  let new_pos : Nat := (intClamp new_pos 0 duration).toNat
  let app := { app with position := fromSecs new_pos }
  match app.sink, app.playback_state with
  | some _, .Playing =>
    if env.fileOk then
      if env.decodeOk then
        { app with playback_start := some (now - (app.position : Int)) }
      else app
    else app
  | _, _ =>
    match app.playback_start with
    | some playback_start => { app with playback_start := some playback_start }
    | none => app

/-- The wrapped index computation of `next_track`:
`(current as i32 + direction).rem_euclid(len) as usize`; Lean `Int.emod`
is non-negative for a positive modulus exactly like `rem_euclid`. -/
def navIndex (i : Nat) (direction : Int) (n : Nat) : Nat :=
  (((i : Int) + direction) % (n : Int)).toNat

/-- Translation of `next_track` (src/main.rs lines 1000-1012): move the
index with Euclidean wraparound, mirror it into the list and scrollbar
state, reset position and anchor, then reload the track unless Stopped. -/
def next_track (app : App) (direction : Int) (env : LoadEnv) (now : Int) : App :=
  let idx := navIndex app.current_track direction app.tracks.length
  let app :=
    { app with
      current_track := idx
      list_selected := some idx
      position := 0
      playback_start := none
      scroll_position := idx }
  if app.playback_state = .Stopped then app else play_track app env now

/-- Translation of `hide_track` (src/main.rs lines 1014-1018). -/
def hide_track (app : App) (index : Nat) (env : LoadEnv) (now : Int) : App :=
  next_track { app with tracks := app.tracks.eraseIdx index } 0 env now

/-- Translation of the per-iteration timing block of `run_app`
(src/main.rs lines 551-557): while Playing with an anchor, recompute
`position = start_time.elapsed()` (saturating at zero for a monotonic
clock) and auto-advance by `!repeat_mode as i32` when the track end is
reached. -/
def tick (app : App) (now : Int) (env : LoadEnv) : App :=
  match app.playback_state, app.playback_start with
  | .Playing, some start_time =>
    let app := { app with position := (now - start_time).toNat }
    if app.curDur ≤ app.position then
      next_track app (if app.repeat_mode then 0 else 1) env now
    else app
  | _, _ => app

/-- The command surface dispatched by `run_app`'s key handling, with the
environment outcomes each handler consumes attached to the command. -/
inductive Cmd
  | togglePlayback (env : LoadEnv) (now : Int)
  | toggleRepeat
  | seekBy (seconds : Int) (env : LoadEnv) (now : Int)
  | navigate (direction : Int) (env : LoadEnv) (now : Int)
  | hideCurrent (env : LoadEnv) (now : Int)
  | tickEv (now : Int) (env : LoadEnv)

/-- One step of the event loop, dispatching exactly as the key matcher in
`run_app` does (hide is always invoked at the current index). -/
def step (app : App) : Cmd → App
  | .togglePlayback env now => toggle_playback app env now
  | .toggleRepeat => toggle_repeat app
  | .seekBy s env now => seek app s env now
  | .navigate dir env now => next_track app dir env now
  | .hideCurrent env now => hide_track app app.current_track env now
  | .tickEv now env => tick app now env

/-- The initial `App` built in `main` (src/main.rs lines 288-300). -/
def initApp (tracks : List Track) : App :=
  { tracks := tracks
    current_track := 0
    list_selected := some 0
    playback_state := .Stopped
    position := 0
    playback_start := none
    repeat_mode := false
    sink := none
    stream := none
    scroll_position := 0 }

/-- Run a sequence of commands from a state. -/
def run (app : App) (cmds : List Cmd) : App := cmds.foldl step app

/-! Order lemmas for the Rust string comparison. -/

theorem lexLe_refl : ∀ (l : List Char), lexLe l l = true
  | [] => rfl
  | a :: as => by simp [lexLe, lexLe_refl as]

theorem lexLe_total : ∀ (a b : List Char), lexLe a b = false → lexLe b a = true
  | [], _, h => by simp [lexLe] at h
  | _ :: _, [], _ => rfl
  | x :: xs, y :: ys, h => by
    simp only [lexLe] at h ⊢
    by_cases h1 : x.toNat < y.toNat
    · rw [if_pos h1] at h
      exact absurd h (by simp)
    · by_cases h2 : y.toNat < x.toNat
      · rw [if_pos h2]
      · rw [if_neg h1, if_neg h2] at h
        rw [if_neg h2, if_neg h1]
        exact lexLe_total xs ys h

theorem lexLe_trans : ∀ (a b c : List Char),
    lexLe a b = true → lexLe b c = true → lexLe a c = true
  | [], _, _, _, _ => rfl
  | _ :: _, [], _, h1, _ => by simp [lexLe] at h1
  | _ :: _, _ :: _, [], _, h2 => by simp [lexLe] at h2
  | x :: xs, y :: ys, z :: zs, h1, h2 => by
    simp only [lexLe] at h1 h2 ⊢
    by_cases hxy : x.toNat < y.toNat
    · by_cases hyz : y.toNat < z.toNat
      · simp [show x.toNat < z.toNat by omega]
      · by_cases hzy : z.toNat < y.toNat
        · simp [if_neg hyz, hzy] at h2
        · simp [show x.toNat < z.toNat by omega]
    · by_cases hyx : y.toNat < x.toNat
      · simp [if_neg hxy, hyx] at h1
      · by_cases hyz : y.toNat < z.toNat
        · simp [show x.toNat < z.toNat by omega]
        · by_cases hzy : z.toNat < y.toNat
          · simp [if_neg hyz, hzy] at h2
          · rw [if_neg (show ¬ x.toNat < z.toNat by omega),
                if_neg (show ¬ z.toNat < x.toNat by omega)]
            rw [if_neg hxy, if_neg hyx] at h1
            rw [if_neg hyz, if_neg hzy] at h2
            exact lexLe_trans xs ys zs h1 h2

theorem keyLe_refl (a : String) : keyLe a a = true := lexLe_refl a.data

theorem keyLe_total (a b : String) (h : keyLe a b = false) : keyLe b a = true :=
  lexLe_total a.data b.data h

theorem keyLe_trans (a b c : String) (h1 : keyLe a b = true) (h2 : keyLe b c = true) :
    keyLe a c = true :=
  lexLe_trans a.data b.data c.data h1 h2

/-! Stable-sort lemmas. -/

theorem mem_insertByKey {α : Type} (k : α → String) (x z : α) :
    ∀ (l : List α), z ∈ insertByKey k x l ↔ z = x ∨ z ∈ l
  | [] => by simp [insertByKey]
  | y :: ys => by
    simp only [insertByKey]
    by_cases h : keyLe (k x) (k y) = true
    · simp only [if_pos h, List.mem_cons]
    · simp only [if_neg h, List.mem_cons, mem_insertByKey k x z ys]
      tauto

theorem pairwise_insertByKey {α : Type} (k : α → String) (x : α) :
    ∀ (l : List α),
      List.Pairwise (fun a b => keyLe (k a) (k b) = true) l →
      List.Pairwise (fun a b => keyLe (k a) (k b) = true) (insertByKey k x l)
  | [], _ => by simp [insertByKey]
  | y :: ys, hp => by
    rw [List.pairwise_cons] at hp
    obtain ⟨hy, hys⟩ := hp
    simp only [insertByKey]
    by_cases h : keyLe (k x) (k y) = true
    · rw [if_pos h, List.pairwise_cons]
      refine ⟨?_, ?_⟩
      · intro z hz
        rcases List.mem_cons.mp hz with rfl | hz
        · exact h
        · exact keyLe_trans _ _ _ h (hy z hz)
      · rw [List.pairwise_cons]
        exact ⟨hy, hys⟩
    · rw [if_neg h, List.pairwise_cons]
      refine ⟨?_, pairwise_insertByKey k x ys hys⟩
      intro z hz
      rcases (mem_insertByKey k x z ys).mp hz with rfl | hz
      · exact keyLe_total _ _ (by revert h; cases keyLe (k z) (k y) <;> simp)
      · exact hy z hz

theorem pairwise_sortByKey {α : Type} (k : α → String) :
    ∀ (l : List α), List.Pairwise (fun a b => keyLe (k a) (k b) = true) (sortByKey k l)
  | [] => by simp [sortByKey]
  | x :: xs => pairwise_insertByKey k x _ (pairwise_sortByKey k xs)

theorem perm_insertByKey {α : Type} (k : α → String) (x : α) :
    ∀ (l : List α), (insertByKey k x l).Perm (x :: l)
  | [] => List.Perm.refl _
  | y :: ys => by
    simp only [insertByKey]
    by_cases h : keyLe (k x) (k y) = true
    · rw [if_pos h]
    · rw [if_neg h]
      exact ((perm_insertByKey k x ys).cons y).trans (List.Perm.swap x y ys)

theorem perm_sortByKey {α : Type} (k : α → String) :
    ∀ (l : List α), (sortByKey k l).Perm l
  | [] => List.Perm.refl _
  | x :: xs => (perm_insertByKey k x _).trans ((perm_sortByKey k xs).cons x)

theorem filter_insertByKey {α : Type} (k : α → String) (x : α) (v : String) :
    ∀ (l : List α),
      (insertByKey k x l).filter (fun a => k a == v) =
        if (k x == v) = true then x :: l.filter (fun a => k a == v)
        else l.filter (fun a => k a == v)
  | [] => by
    by_cases h : (k x == v) = true <;>
      simp [insertByKey, List.filter_cons, h]
  | y :: ys => by
    simp only [insertByKey]
    by_cases hxy : keyLe (k x) (k y) = true
    · rw [if_pos hxy]
      by_cases h : (k x == v) = true <;> simp [List.filter_cons, h]
    · rw [if_neg hxy, List.filter_cons, List.filter_cons, filter_insertByKey k x v ys]
      by_cases hx : (k x == v) = true
      · have hky : ¬ ((k y == v) = true) := by
          intro hy
          have h1 : k x = v := eq_of_beq hx
          have h2 : k y = v := eq_of_beq hy
          rw [h1, h2, keyLe_refl] at hxy
          exact hxy rfl
        simp [hx, hky]
      · by_cases hy : (k y == v) = true <;> simp [hx, hy]

theorem filter_sortByKey {α : Type} (k : α → String) (v : String) :
    ∀ (l : List α),
      (sortByKey k l).filter (fun a => k a == v) = l.filter (fun a => k a == v)
  | [] => rfl
  | x :: xs => by
    show (insertByKey k x (sortByKey k xs)).filter _ = _
    rw [filter_insertByKey k x v, filter_sortByKey k v xs, List.filter_cons]

/-! Arithmetic lemmas about the wrapped index and clamped seek target. -/

theorem navIndex_lt (i : Nat) (d : Int) (n : Nat) (hn : 0 < n) : navIndex i d n < n := by
  unfold navIndex
  have hne : (n : Int) ≠ 0 := by exact_mod_cast Nat.pos_iff_ne_zero.mp hn
  have h1 : ((i : Int) + d) % (n : Int) < (n : Int) :=
    Int.emod_lt_of_pos _ (by exact_mod_cast hn)
  have h2 : 0 ≤ ((i : Int) + d) % (n : Int) := Int.emod_nonneg _ hne
  omega

theorem navIndex_zero (i n : Nat) (h : i < n) : navIndex i 0 n = i := by
  unfold navIndex
  rw [add_zero, Int.emod_eq_of_lt (by omega) (by exact_mod_cast h)]
  omega

theorem navIndex_one (i n : Nat) (h : i < n) : navIndex i 1 n = (i + 1) % n := by
  unfold navIndex
  rw [show ((i : Int) + 1) = ((i + 1 : Nat) : Int) by push_cast; ring, ← Int.natCast_mod]
  omega

theorem navIndex_roundtrip (i n : Nat) (h : i < n) :
    navIndex (navIndex i 1 n) (-1) n = i := by
  rw [navIndex_one i n h]
  unfold navIndex
  rcases Nat.lt_or_ge (i + 1) n with hlt | hge
  · rw [Nat.mod_eq_of_lt hlt]
    rw [show (((i + 1 : Nat) : Int) + (-1)) = (i : Int) by push_cast; ring]
    rw [Int.emod_eq_of_lt (by omega) (by exact_mod_cast h)]
    omega
  · have hn : i + 1 = n := by omega
    rw [hn, Nat.mod_self]
    rw [show ((0 : Nat) : Int) + (-1) = -1 by norm_num]
    have hmod : (-1 : Int) % (n : Int) = (n : Int) - 1 := by
      rw [show (-1 : Int) = ((n : Int) - 1) + (n : Int) * (-1) by ring,
          Int.add_mul_emod_self_left,
          Int.emod_eq_of_lt (by omega) (by omega)]
    rw [hmod]
    omega

theorem navIndex_last (n : Nat) (hn : 0 < n) : navIndex (n - 1) 1 n = 0 := by
  unfold navIndex
  rw [show ((n - 1 : Nat) : Int) + 1 = (n : Int) by omega]
  rw [Int.emod_self]
  rfl

theorem navIndex_zero_neg_one (n : Nat) (hn : 0 < n) : navIndex 0 (-1) n = n - 1 := by
  unfold navIndex
  rw [show ((0 : Nat) : Int) + (-1) = -1 by norm_num]
  rw [show (-1 : Int) = ((n : Int) - 1) + (n : Int) * (-1) by ring,
      Int.add_mul_emod_self_left,
      Int.emod_eq_of_lt (by omega) (by omega)]
  omega

theorem intClamp_nonneg (x hi : Int) (h : 0 ≤ hi) : 0 ≤ intClamp x 0 hi := by
  unfold intClamp
  split
  · omega
  · split <;> omega

theorem intClamp_le (x hi : Int) (h : 0 ≤ hi) : intClamp x 0 hi ≤ hi := by
  unfold intClamp
  split
  · omega
  · split <;> omega

theorem fromSecs_asSecs_le (d : Nat) : fromSecs (asSecs d) ≤ d :=
  Nat.div_mul_le_self d nsPerSec

theorem fromSecs_le_fromSecs {a b : Nat} (h : a ≤ b) : fromSecs a ≤ fromSecs b :=
  Nat.mul_le_mul_right nsPerSec h

/-! Field-preservation lemmas for the command handlers. -/

theorem play_track_tracks (app : App) (env : LoadEnv) (now : Int) :
    (play_track app env now).tracks = app.tracks := by
  obtain ⟨s, f, d⟩ := env
  cases s <;> cases f <;> cases d <;> simp [play_track]

theorem play_track_current (app : App) (env : LoadEnv) (now : Int) :
    (play_track app env now).current_track = app.current_track := by
  obtain ⟨s, f, d⟩ := env
  cases s <;> cases f <;> cases d <;> simp [play_track]

theorem play_track_repeat (app : App) (env : LoadEnv) (now : Int) :
    (play_track app env now).repeat_mode = app.repeat_mode := by
  obtain ⟨s, f, d⟩ := env
  cases s <;> cases f <;> cases d <;> simp [play_track]

theorem play_track_position (app : App) (env : LoadEnv) (now : Int) :
    (play_track app env now).position = if env.ok then 0 else app.position := by
  obtain ⟨s, f, d⟩ := env
  cases s <;> cases f <;> cases d <;> simp [play_track, LoadEnv.ok]

theorem play_track_state (app : App) (env : LoadEnv) (now : Int) :
    (play_track app env now).playback_state =
      if env.ok then PlaybackState.Playing else PlaybackState.Stopped := by
  obtain ⟨s, f, d⟩ := env
  cases s <;> cases f <;> cases d <;> simp [play_track, LoadEnv.ok]

theorem play_track_sink_ok (app : App) (env : LoadEnv) (now : Int) (h : env.ok = true) :
    (play_track app env now).sink = some { paused := false } := by
  obtain ⟨s, f, d⟩ := env
  cases s <;> cases f <;> cases d <;> simp_all [play_track, LoadEnv.ok]

theorem play_track_sink_fail (app : App) (env : LoadEnv) (now : Int) (h : env.ok = false) :
    (play_track app env now).sink = app.sink := by
  obtain ⟨s, f, d⟩ := env
  cases s <;> cases f <;> cases d <;> simp_all [play_track, LoadEnv.ok]

theorem play_track_anchor_ok (app : App) (env : LoadEnv) (now : Int) (h : env.ok = true) :
    (play_track app env now).playback_start = some now := by
  obtain ⟨s, f, d⟩ := env
  cases s <;> cases f <;> cases d <;> simp_all [play_track, LoadEnv.ok]

theorem next_track_tracks (app : App) (direction : Int) (env : LoadEnv) (now : Int) :
    (next_track app direction env now).tracks = app.tracks := by
  unfold next_track
  by_cases h : app.playback_state = PlaybackState.Stopped <;>
    simp [h, play_track_tracks]

theorem next_track_current (app : App) (direction : Int) (env : LoadEnv) (now : Int) :
    (next_track app direction env now).current_track =
      navIndex app.current_track direction app.tracks.length := by
  unfold next_track
  by_cases h : app.playback_state = PlaybackState.Stopped <;>
    simp [h, play_track_current]

theorem next_track_position (app : App) (direction : Int) (env : LoadEnv) (now : Int) :
    (next_track app direction env now).position = 0 := by
  unfold next_track
  by_cases h : app.playback_state = PlaybackState.Stopped <;>
    simp [h, play_track_position]

theorem curDur_update_position (app : App) (p : Nat) :
    App.curDur { app with position := p } = app.curDur := rfl

theorem next_track_eq_play (app : App) (direction : Int) (env : LoadEnv) (now : Int)
    (h : app.playback_state ≠ PlaybackState.Stopped) :
    next_track app direction env now =
      play_track
        { app with
          current_track := navIndex app.current_track direction app.tracks.length
          list_selected := some (navIndex app.current_track direction app.tracks.length)
          position := 0
          playback_start := none
          scroll_position := navIndex app.current_track direction app.tracks.length }
        env now := by
  unfold next_track
  simp [h]

theorem next_track_state (app : App) (direction : Int) (env : LoadEnv) (now : Int)
    (h : app.playback_state ≠ PlaybackState.Stopped) :
    (next_track app direction env now).playback_state =
      if env.ok then PlaybackState.Playing else PlaybackState.Stopped := by
  rw [next_track_eq_play app direction env now h, play_track_state]

theorem seek_position (app : App) (seconds : Int) (env : LoadEnv) (now : Int) :
    (seek app seconds env now).position =
      fromSecs ((intClamp ((asSecs app.position : Int) + seconds) 0
        ((asSecs app.curDur : Int))).toNat) := by
  obtain ⟨tr, ct, ls, ps, pos, pst, rm, sk, st, sc⟩ := app
  obtain ⟨es, ef, ed⟩ := env
  cases ps <;> cases sk <;> cases pst <;> cases ef <;> cases ed <;> rfl

theorem seek_stopped (app : App) (seconds : Int) (env : LoadEnv) (now : Int)
    (h : app.playback_state = PlaybackState.Stopped) :
    seek app seconds env now =
      { app with
        position := fromSecs ((intClamp ((asSecs app.position : Int) + seconds) 0
          ((asSecs app.curDur : Int))).toNat) } := by
  obtain ⟨tr, ct, ls, ps, pos, pst, rm, sk, st, sc⟩ := app
  cases ps with
  | Stopped => cases pst <;> cases sk <;> rfl
  | Playing => exact absurd h (by simp)
  | Paused => exact absurd h (by simp)

theorem tick_not_playing (app : App) (now : Int) (env : LoadEnv)
    (h : app.playback_state ≠ PlaybackState.Playing) : tick app now env = app := by
  unfold tick
  cases hps : app.playback_state with
  | Playing => exact absurd hps h
  | Paused => rfl
  | Stopped => rfl

theorem tick_no_anchor (app : App) (now : Int) (env : LoadEnv)
    (h : app.playback_start = none) : tick app now env = app := by
  unfold tick
  rw [h]
  cases app.playback_state <;> rfl

theorem tick_trigger (app : App) (now : Int) (env : LoadEnv) (a : Int)
    (hps : app.playback_state = PlaybackState.Playing)
    (hst : app.playback_start = some a)
    (hge : app.curDur ≤ (now - a).toNat) :
    tick app now env =
      next_track { app with position := (now - a).toNat }
        (if app.repeat_mode then 0 else 1) env now := by
  unfold tick
  rw [hps, hst]
  dsimp only
  split
  · rfl
  · next hcond => exact absurd hge hcond

theorem tick_no_trigger (app : App) (now : Int) (env : LoadEnv) (a : Int)
    (hps : app.playback_state = PlaybackState.Playing)
    (hst : app.playback_start = some a)
    (hlt : (now - a).toNat < app.curDur) :
    tick app now env = { app with position := (now - a).toNat } := by
  unfold tick
  rw [hps, hst]
  dsimp only
  split
  · next hcond => exact absurd hcond (Nat.not_le.mpr hlt)
  · rfl

/-! Concrete fixtures used by the closed theorems. -/

/-- A 30-second track as the scanner would produce it. -/
def sampleTrack : Track :=
  { path := { stem := some ("a"), ext := some ("mp3") }
    duration := fromSecs 30
    metadata := { title := some ("a") } }

/-- A 20-second track as the scanner would produce it. -/
def sampleTrack2 : Track :=
  { path := { stem := some ("b"), ext := some ("mp3") }
    duration := fromSecs 20
    metadata := { title := some ("b") } }

/-- Every resource acquisition succeeds. -/
def allOk : LoadEnv := { streamOk := true, fileOk := true, decodeOk := true }

/-- Environment where `OutputStream::try_default()` fails; nothing else
is reached. -/
def noStream : LoadEnv := { streamOk := false, fileOk := true, decodeOk := true }

/-- A matching audio file whose duration probe and tag read both fail. -/
def badEntry : ScanEntry :=
  { path := { stem := some ("Artist - Song"), ext := some ("mp3") }
    is_file := true
    probe := Except.error ()
    tag_read := none }

/-- A file tagged with title "Zeta", enumerated first. -/
def entryZeta : ScanEntry :=
  { path := { stem := some ("A"), ext := some ("mp3") }
    is_file := true
    probe := Except.ok (some (fromSecs 30))
    tag_read := some { tag := some { title := some ("Zeta") } } }

/-- A file tagged with title "alpha", enumerated second. -/
def entryAlpha : ScanEntry :=
  { path := { stem := some ("B"), ext := some ("flac") }
    is_file := true
    probe := Except.ok (some (fromSecs 20))
    tag_read := some { tag := some { title := some ("alpha") } } }

/-- Playing state reached by toggling playback once from startup and then
letting one tick elapse 3 nanoseconds into the track. -/
def afterTick : App :=
  run (initApp [sampleTrack]) [Cmd.togglePlayback allOk 0, Cmd.tickEv 3 allOk]

/-- Paused state reached by toggling playback twice from startup on a
two-track library. -/
def pausedState : App :=
  run (initApp [sampleTrack, sampleTrack2])
    [Cmd.togglePlayback allOk 0, Cmd.togglePlayback allOk 1]

/-- A track whose duration probe failed at scan time (duration 0). -/
def zeroTrack : Track :=
  { path := { stem := some ("z"), ext := some ("wav") }
    duration := 0
    metadata := { title := some ("z") } }

/-- Playing state over a library whose current track has duration 0. -/
def zeroDurPlaying : App :=
  run (initApp [zeroTrack, sampleTrack]) [Cmd.togglePlayback allOk 0]

/-! Claim theorems. -/

/-- C1: the claimed invariant `active_output.is_some() iff playback_phase
in {Playing, Paused}` fails on the code: starting from the initial state
of a one-track library, a successful togglePlayback followed by a
nextTrack whose output-device acquisition fails reaches a state whose
phase is Stopped while the previous output handle is still installed —
the failure path of `play_track` only assigns `playback_state` and never
clears `app.sink`. -/
theorem c1_output_invariant_fails_on_failed_reload :
    (run (initApp [sampleTrack])
        [Cmd.togglePlayback allOk 0, Cmd.navigate 1 noStream 1]).playback_state =
      PlaybackState.Stopped ∧
    (run (initApp [sampleTrack])
        [Cmd.togglePlayback allOk 0, Cmd.navigate 1 noStream 1]).sink.isSome = true := by
  decide

/-- C2: the claim that a failed load yields `active_output = None` fails
on the code: in a reachable Playing state holding a sink (position 3 ns
into the track), a `play_track` whose device acquisition fails leaves the
phase Stopped and the position unchanged as claimed, but the previous
output handle is retained rather than cleared. -/
theorem c2_failed_load_keeps_previous_handle :
    afterTick.sink = some { paused := false } ∧
    afterTick.position = 3 ∧
    (play_track afterTick noStream 5).playback_state = PlaybackState.Stopped ∧
    (play_track afterTick noStream 5).sink = some { paused := false } ∧
    (play_track afterTick noStream 5).position = 3 := by
  decide

/-- C3 counterexample: in the reachable Paused state, nextTrack with all
acquisitions succeeding puts the transport in Playing — it resumes
audible playback, contradicting the claim that the phase stays Paused. -/
theorem c3_counterexample :
    pausedState.playback_state = PlaybackState.Paused ∧
    (next_track pausedState 1 allOk 2).playback_state = PlaybackState.Playing := by
  decide

/-- C3 (amended): a track-navigation command while Paused advances the
index with Euclidean wraparound and resets the position to 0, but then
reloads the track: on successful acquisition the phase becomes Playing
with a fresh output handle and anchor (playback resumes audibly), and on
failed acquisition the phase becomes Stopped — it never stays Paused. -/
theorem c3_paused_navigation (app : App) (dir : Int) (env : LoadEnv) (now : Int)
    (hp : app.playback_state = PlaybackState.Paused) :
    (next_track app dir env now).current_track =
        navIndex app.current_track dir app.tracks.length ∧
    (next_track app dir env now).position = 0 ∧
    (env.ok = true →
      (next_track app dir env now).playback_state = PlaybackState.Playing ∧
      (next_track app dir env now).sink = some { paused := false } ∧
      (next_track app dir env now).playback_start = some now) ∧
    (env.ok = false →
      (next_track app dir env now).playback_state = PlaybackState.Stopped) := by
  have hns : app.playback_state ≠ PlaybackState.Stopped := by rw [hp]; simp
  refine ⟨next_track_current app dir env now, next_track_position app dir env now, ?_, ?_⟩
  · intro hok
    rw [next_track_eq_play app dir env now hns]
    refine ⟨?_, play_track_sink_ok _ env now hok, play_track_anchor_ok _ env now hok⟩
    rw [play_track_state, hok]
    rfl
  · intro hfail
    rw [next_track_eq_play app dir env now hns, play_track_state, hfail]
    rfl

/-- C3 witness: the amended statement evaluated in the reachable Paused
state with direction +1 and all acquisitions succeeding. -/
theorem c3_paused_navigation_witness :
    (next_track pausedState 1 allOk 2).current_track =
        navIndex pausedState.current_track 1 pausedState.tracks.length ∧
    (next_track pausedState 1 allOk 2).position = 0 ∧
    (next_track pausedState 1 allOk 2).playback_state = PlaybackState.Playing ∧
    (next_track pausedState 1 allOk 2).sink = some { paused := false } ∧
    (next_track pausedState 1 allOk 2).playback_start = some 2 := by
  have h := c3_paused_navigation pausedState 1 allOk 2 (by decide)
  exact ⟨h.1, h.2.1, (h.2.2.1 (by decide)).1, (h.2.2.1 (by decide)).2.1,
    (h.2.2.1 (by decide)).2.2⟩

/-- C4 counterexample: in the initial (Stopped) state of a one-track
library, seek(+5) changes the stored position from 0 to 5 seconds, so
seek while Stopped is not a no-op. -/
theorem c4_counterexample :
    (initApp [sampleTrack]).playback_state = PlaybackState.Stopped ∧
    (seek (initApp [sampleTrack]) 5 allOk 0).position ≠ (initApp [sampleTrack]).position := by
  decide

/-- C4 (amended): for every state whose phase is Stopped, seek(delta)
updates only the stored position — to the whole-second target clamped to
[0, total_duration] — and leaves every other field of the transport state
unchanged (no output interaction happens). -/
theorem c4_seek_stopped (app : App) (seconds : Int) (env : LoadEnv) (now : Int)
    (h : app.playback_state = PlaybackState.Stopped) :
    seek app seconds env now =
      { app with
        position := fromSecs ((intClamp ((asSecs app.position : Int) + seconds) 0
          ((asSecs app.curDur : Int))).toNat) } :=
  seek_stopped app seconds env now h

/-- C4 witness: the amended statement evaluated at the initial state with
delta +5. -/
theorem c4_seek_stopped_witness :
    seek (initApp [sampleTrack]) 5 allOk 0 =
      { initApp [sampleTrack] with
        position := fromSecs ((intClamp
          ((asSecs (initApp [sampleTrack]).position : Int) + 5) 0
          ((asSecs (initApp [sampleTrack]).curDur : Int))).toNat) } :=
  c4_seek_stopped (initApp [sampleTrack]) 5 allOk 0 (by decide)

/-- C5: for every state, signed delta and current track, after seek the
stored position equals the old position in whole seconds plus the delta,
clamped to [0, total_duration in whole seconds] of the current track; in
particular the position stays within [0, total_duration] (the lower bound
is inherent to the non-negative position representation). -/
theorem c5_seek_clamps (app : App) (seconds : Int) (env : LoadEnv) (now : Int) (t : Track)
    (ht : app.tracks.get? app.current_track = some t) :
    (seek app seconds env now).position =
      fromSecs ((intClamp ((asSecs app.position : Int) + seconds) 0
        ((asSecs t.duration : Int))).toNat) ∧
    (seek app seconds env now).position ≤ t.duration := by
  have hd : app.curDur = t.duration := by
    unfold App.curDur
    rw [ht]
    rfl
  constructor
  · rw [seek_position, hd]
  · rw [seek_position, hd]
    have h1 : intClamp ((asSecs app.position : Int) + seconds) 0 ((asSecs t.duration : Int)) ≤
        ((asSecs t.duration : Int)) := intClamp_le _ _ (by positivity)
    have h2 : 0 ≤ intClamp ((asSecs app.position : Int) + seconds) 0
        ((asSecs t.duration : Int)) := intClamp_nonneg _ _ (by positivity)
    calc fromSecs ((intClamp ((asSecs app.position : Int) + seconds) 0
            ((asSecs t.duration : Int))).toNat)
        ≤ fromSecs (asSecs t.duration) := fromSecs_le_fromSecs (by omega)
      _ ≤ t.duration := fromSecs_asSecs_le _

/-- C5 witness: seeking -100 seconds from the initial state of the
30-second track clamps to position 0. -/
theorem c5_seek_clamps_witness :
    (seek (initApp [sampleTrack]) (-100) allOk 0).position =
      fromSecs ((intClamp ((asSecs (initApp [sampleTrack]).position : Int) + (-100)) 0
        ((asSecs sampleTrack.duration : Int))).toNat) ∧
    (seek (initApp [sampleTrack]) (-100) allOk 0).position ≤ sampleTrack.duration :=
  c5_seek_clamps (initApp [sampleTrack]) (-100) allOk 0 sampleTrack (by decide)

/-- C6: end-of-track auto-advance happens only on a tick in the Playing
phase with an anchor: a tick outside Playing (or with no anchor) changes
nothing, a tick whose recomputed position is below the current track's
total_duration only stores the new position, and a tick whose recomputed
position reaches total_duration advances the index by 0 when repeat_mode
is set (same track) and by +1 modulo the library length otherwise
(wrapping from the last track to 0). -/
theorem c6_tick_auto_advance (app : App) (now : Int) (env : LoadEnv) (a : Int)
    (hidx : app.current_track < app.tracks.length) :
    ((app.playback_state ≠ PlaybackState.Playing ∨ app.playback_start = none) →
        tick app now env = app) ∧
    (app.playback_state = PlaybackState.Playing → app.playback_start = some a →
      (((now - a).toNat < app.curDur →
          tick app now env = { app with position := (now - a).toNat }) ∧
       (app.curDur ≤ (now - a).toNat →
          (tick app now env).current_track =
            if app.repeat_mode then app.current_track
            else (app.current_track + 1) % app.tracks.length))) := by
  constructor
  · intro h
    rcases h with h | h
    · exact tick_not_playing app now env h
    · exact tick_no_anchor app now env h
  · intro hps hst
    constructor
    · intro hlt
      exact tick_no_trigger app now env a hps hst hlt
    · intro hge
      rw [tick_trigger app now env a hps hst hge, next_track_current]
      by_cases hr : app.repeat_mode
      · rw [if_pos hr, if_pos hr]
        exact navIndex_zero _ _ hidx
      · rw [if_neg hr, if_neg hr]
        exact navIndex_one _ _ hidx

/-- C6 witness: the statement evaluated in the reachable Playing state of
the one-track library at a tick 40 seconds past the anchor (past the
30-second duration), with repeat off: the index wraps back to 0. -/
theorem c6_tick_auto_advance_witness :
    (tick afterTick ((fromSecs 40 : Nat) : Int) allOk).current_track =
      if afterTick.repeat_mode then afterTick.current_track
      else (afterTick.current_track + 1) % afterTick.tracks.length := by
  have h := c6_tick_auto_advance afterTick ((fromSecs 40 : Nat) : Int) allOk 0 (by decide)
  exact (h.2 (by decide) (by decide)).2 (by decide)

/-- C7: track navigation reduces `(current_index + direction)` by the
always-non-negative Euclidean remainder modulo the library length: for a
library of size at least 2 with a valid index, nextTrack(+1) then
previousTrack(-1) returns to the starting index, direction -1 from index
0 yields the last index, and direction +1 from the last index yields 0. -/
theorem c7_nav_inverse (app : App) (env1 env2 : LoadEnv) (t1 t2 : Int)
    (hn : 2 ≤ app.tracks.length) (hidx : app.current_track < app.tracks.length) :
    (next_track (next_track app 1 env1 t1) (-1) env2 t2).current_track =
        app.current_track ∧
    (app.current_track = 0 →
      (next_track app (-1) env2 t2).current_track = app.tracks.length - 1) ∧
    (app.current_track = app.tracks.length - 1 →
      (next_track app 1 env1 t1).current_track = 0) := by
  have hpos : 0 < app.tracks.length := by omega
  refine ⟨?_, ?_, ?_⟩
  · rw [next_track_current, next_track_current, next_track_tracks]
    exact navIndex_roundtrip _ _ hidx
  · intro h0
    rw [next_track_current, h0]
    exact navIndex_zero_neg_one _ hpos
  · intro hl
    rw [next_track_current, hl]
    exact navIndex_last _ hpos

/-- C7 witness: the statement evaluated on a fresh two-track library at
index 0. -/
theorem c7_nav_inverse_witness :
    (next_track (next_track (initApp [sampleTrack, sampleTrack2]) 1 allOk 0) (-1) noStream 1).current_track =
        (initApp [sampleTrack, sampleTrack2]).current_track ∧
    (next_track (initApp [sampleTrack, sampleTrack2]) (-1) noStream 1).current_track =
        (initApp [sampleTrack, sampleTrack2]).tracks.length - 1 := by
  have h := c7_nav_inverse (initApp [sampleTrack, sampleTrack2]) allOk noStream 0 1
    (by decide) (by decide)
  exact ⟨h.1, h.2.1 (by decide)⟩

/-- C8 counterexample: a walker stream consisting of the single error
entry produced by an unlistable root makes `scan_music_files` return
`Ok([])`, not a scan error — the claimed failure mode does not exist,
because the source drops erroneous walker entries with
`filter_map(|e| e.ok())` and otherwise always returns `Ok`. -/
theorem c8_counterexample :
    scan_music_files false [Except.error ()] = Except.ok [] := by
  decide

/-- C8 (amended): the scan itself never fails — every walker stream
yields an `Ok` library (an unlistable root degrades to the empty library,
rejected later by the empty-library check in `main`) — and a per-file
failure to probe the duration or read the tags degrades that file to
duration 0 with metadata derived from the file name (here the base name
"Artist - Song" splits into artist and title). -/
theorem c8_scan_total :
    (∀ (recursive : Bool) (entries : List (Except Unit ScanEntry)),
        ∃ ts, scan_music_files recursive entries = Except.ok ts) ∧
    scan_music_files false [Except.ok badEntry] =
      Except.ok [{ path := { stem := some ("Artist - Song"), ext := some ("mp3") }
                   duration := 0
                   metadata := { title := some ("Song"), artist := some ("Artist") } }] := by
  exact ⟨fun recursive entries => ⟨_, rfl⟩, by decide⟩

/-- C9: the scanned library is sorted by the case-insensitive resolved
title in the byte-lexicographic string order, stably: for every key
value, the tracks carrying that key appear in their original enumeration
order (the filter by any key value is preserved), and the output is a
permutation of the collected tracks; in particular scanning files titled
"Zeta" then "alpha" yields the "alpha" track first. -/
theorem c9_scan_sorted_stable :
    (∀ (recursive : Bool) (entries : List (Except Unit ScanEntry)),
      ∃ ts, scan_music_files recursive entries = Except.ok ts ∧
        List.Pairwise (fun a b => keyLe (trackSortKey a) (trackSortKey b) = true) ts ∧
        (∀ v : String, ts.filter (fun t => trackSortKey t == v) =
            (collectTracks entries).filter (fun t => trackSortKey t == v)) ∧
        ts.Perm (collectTracks entries)) ∧
    scan_music_files false [Except.ok entryZeta, Except.ok entryAlpha] =
      Except.ok
        [{ path := { stem := some ("B"), ext := some ("flac") }
           duration := fromSecs 20
           metadata := { title := some ("alpha") } },
         { path := { stem := some ("A"), ext := some ("mp3") }
           duration := fromSecs 30
           metadata := { title := some ("Zeta") } }] := by
  constructor
  · intro recursive entries
    exact ⟨_, rfl, pairwise_sortByKey trackSortKey _,
      fun v => filter_sortByKey trackSortKey v _, perm_sortByKey trackSortKey _⟩
  · decide

/-- C10: a track whose total_duration is 0 (the scanner's encoding of an
unprobeable duration) satisfies the end-of-track condition on the very
first tick while Playing: the tick advances the index (same track when
repeat_mode is set, next track modulo the library length otherwise), and
when the reload succeeds the track restarts from position 0 in the
Playing phase. -/
theorem c10_zero_duration_advances (app : App) (now : Int) (env : LoadEnv) (a : Int)
    (hps : app.playback_state = PlaybackState.Playing)
    (hst : app.playback_start = some a)
    (hidx : app.current_track < app.tracks.length)
    (hdur : app.curDur = 0) :
    (tick app now env).current_track =
      (if app.repeat_mode then app.current_track
       else (app.current_track + 1) % app.tracks.length) ∧
    (env.ok = true →
      (tick app now env).playback_state = PlaybackState.Playing ∧
      (tick app now env).position = 0) := by
  have hge : app.curDur ≤ (now - a).toNat := by omega
  constructor
  · rw [tick_trigger app now env a hps hst hge, next_track_current]
    by_cases hr : app.repeat_mode
    · rw [if_pos hr, if_pos hr]
      exact navIndex_zero _ _ hidx
    · rw [if_neg hr, if_neg hr]
      exact navIndex_one _ _ hidx
  · intro hok
    rw [tick_trigger app now env a hps hst hge,
        next_track_eq_play _ _ env now (by simp [hps])]
    refine ⟨?_, ?_⟩
    · rw [play_track_state]
      simp [hok]
    · rw [play_track_position]
      simp [hok]

/-- C10 witness: the statement evaluated in the reachable Playing state
over a zero-duration library at the first tick. -/
theorem c10_zero_duration_advances_witness :
    (tick zeroDurPlaying 7 allOk).current_track =
      (if zeroDurPlaying.repeat_mode then zeroDurPlaying.current_track
       else (zeroDurPlaying.current_track + 1) % zeroDurPlaying.tracks.length) ∧
    (tick zeroDurPlaying 7 allOk).playback_state = PlaybackState.Playing ∧
    (tick zeroDurPlaying 7 allOk).position = 0 := by
  have h := c10_zero_duration_advances zeroDurPlaying 7 allOk 0
    (by decide) (by decide) (by decide) (by decide)
  exact ⟨h.1, (h.2 (by decide)).1, (h.2 (by decide)).2⟩

end Sonido
